import Mathlib

/-
Verification of the docker-registry-api-simulator core against its
natural-language specification.  The definitions below are a shallow
embedding of the TypeScript source: the digest engine (computeDigest),
the generator (generateDatabase and friends), and the server request
logic (pagination, content negotiation, basic auth, manifest get/head/
delete with cascading blob GC).  Randomness (Math.random, faker,
randomUUID) is modelled as an injected oracle, following the source's
own design note that the random source should be injectable.
-/

namespace Reg

/- ===================== Digest engine (SHA-256) =====================
Port of computeDigest: "sha256:" + hex(sha256(utf8 bytes of content)).
Machine words are Nat reduced mod 2^32. -/

def w32 : Nat := 4294967296

def rotr (n x : Nat) : Nat := ((x >>> n) ||| (x <<< (32 - n))) % w32

def bnot32 (x : Nat) : Nat := (w32 - 1) - (x % w32)

def add32 (a b : Nat) : Nat := (a + b) % w32

def smallSigma0 (x : Nat) : Nat := (rotr 7 x) ^^^ (rotr 18 x) ^^^ (x >>> 3)

def smallSigma1 (x : Nat) : Nat := (rotr 17 x) ^^^ (rotr 19 x) ^^^ (x >>> 10)

def bigSigma0 (x : Nat) : Nat := (rotr 2 x) ^^^ (rotr 13 x) ^^^ (rotr 22 x)

def bigSigma1 (x : Nat) : Nat := (rotr 6 x) ^^^ (rotr 11 x) ^^^ (rotr 25 x)

def chFn (x y z : Nat) : Nat := (x &&& y) ^^^ ((bnot32 x) &&& z)

def majFn (x y z : Nat) : Nat := (x &&& y) ^^^ (x &&& z) ^^^ (y &&& z)

def sha256K : Array Nat := #[
  1116352408, 1899447441, 3049323471, 3921009573,
  961987163, 1508970993, 2453635748, 2870763221,
  3624381080, 310598401, 607225278, 1426881987,
  1925078388, 2162078206, 2614888103, 3248222580,
  3835390401, 4022224774, 264347078, 604807628,
  770255983, 1249150122, 1555081692, 1996064986,
  2554220882, 2821834349, 2952996808, 3210313671,
  3336571891, 3584528711, 113926993, 338241895,
  666307205, 773529912, 1294757372, 1396182291,
  1695183700, 1986661051, 2177026350, 2456956037,
  2730485921, 2820302411, 3259730800, 3345764771,
  3516065817, 3600352804, 4094571909, 275423344,
  430227734, 506948616, 659060556, 883997877,
  958139571, 1322822218, 1537002063, 1747873779,
  1955562222, 2024104815, 2227730452, 2361852424,
  2428436474, 2756734187, 3204031479, 3329325298]

def sha256H0 : Array Nat :=
  #[1779033703, 3144134277, 1013904242, 2773480762,
    1359893119, 2600822924, 528734635, 1541459225]

/-- Big-endian byte expansion of a number into k bytes. -/
def beBytes (k n : Nat) : List Nat :=
  (List.range k).map (fun i => (n >>> (8 * (k - 1 - i))) % 256)

/-- SHA-256 padding of a byte message. -/
def sha256Pad (msg : List Nat) : List Nat :=
  let zeros := (119 - msg.length % 64) % 64
  msg ++ [128] ++ List.replicate zeros 0 ++ beBytes 8 (msg.length * 8)

/-- Big-endian 32-bit words from bytes. -/
def bytesToWords : List Nat → List Nat
  | b0 :: b1 :: b2 :: b3 :: rest =>
      (b0 * 16777216 + b1 * 65536 + b2 * 256 + b3) :: bytesToWords rest
  | _ => []

/-- Split a word list into 16-word blocks. -/
def words16 : List Nat → List (List Nat)
  | [] => []
  | w :: rest => (w :: rest).take 16 :: words16 (rest.drop 15)
termination_by ws => ws.length
decreasing_by
  simp [List.length_drop]
  omega

/-- Message-schedule extension from 16 to 64 words. -/
def sha256Extend (block : List Nat) : Array Nat :=
  (List.range 48).foldl
    (fun w _ =>
      let i := w.size
      w.push ((w.getD (i - 16) 0 + smallSigma0 (w.getD (i - 15) 0) +
               w.getD (i - 7) 0 + smallSigma1 (w.getD (i - 2) 0)) % w32))
    block.toArray

/-- One compression round. -/
def sha256Round (st : Array Nat) (kw : Nat) : Array Nat :=
  let a := st.getD 0 0
  let b := st.getD 1 0
  let c := st.getD 2 0
  let d := st.getD 3 0
  let e := st.getD 4 0
  let f := st.getD 5 0
  let g := st.getD 6 0
  let h := st.getD 7 0
  let t1 := (h + bigSigma1 e + chFn e f g + kw) % w32
  let t2 := (bigSigma0 a + majFn a b c) % w32
  #[(t1 + t2) % w32, a, b, c, (d + t1) % w32, e, f, g]

/-- Compress one 16-word block into the hash state. -/
def sha256Compress (h : Array Nat) (block : List Nat) : Array Nat :=
  let w := sha256Extend block
  let st := (List.range 64).foldl
    (fun st i => sha256Round st ((sha256K.getD i 0 + w.getD i 0) % w32)) h
  (Array.range 8).map (fun i => (h.getD i 0 + st.getD i 0) % w32)

def sha256 (msg : List Nat) : Array Nat :=
  (words16 (bytesToWords (sha256Pad msg))).foldl sha256Compress sha256H0

def hexDigit (n : Nat) : Char :=
  if n < 10 then Char.ofNat (48 + n) else Char.ofNat (87 + n)

def hexWord (w : Nat) : List Char :=
  (List.range 8).map (fun i => hexDigit ((w >>> (4 * (7 - i))) % 16))

def hexOfWords (ws : Array Nat) : String :=
  String.mk (ws.toList.flatMap hexWord)

/-- UTF-8 encoding of one character. -/
def utf8Bytes (c : Char) : List Nat :=
  let n := c.toNat
  if n < 128 then [n]
  else if n < 2048 then [192 + n / 64, 128 + n % 64]
  else if n < 65536 then [224 + n / 4096, 128 + (n / 64) % 64, 128 + n % 64]
  else [240 + n / 262144, 128 + (n / 4096) % 64, 128 + (n / 64) % 64, 128 + n % 64]

def strBytes (s : String) : List Nat :=
  s.data.flatMap utf8Bytes

/-- Port of computeDigest (src/utils/crypto.ts). -/
def computeDigest (content : String) : String :=
  "sha256:" ++ hexOfWords (sha256 (strBytes content))

/- ===================== Base64 decoding =====================
Models Buffer.from(s, "base64").toString("utf-8") as used by
checkBasicAuth.  Invalid characters and '=' padding are skipped, as in
Node's lenient decoder; the resulting bytes are turned into characters
one byte at a time (identical to UTF-8 for the ASCII credentials the
claims exercise). -/

def b64Val (c : Char) : Option Nat :=
  if 'A' ≤ c ∧ c ≤ 'Z' then some (c.toNat - 65)
  else if 'a' ≤ c ∧ c ≤ 'z' then some (c.toNat - 71)
  else if '0' ≤ c ∧ c ≤ '9' then some (c.toNat + 4)
  else if c = '+' then some 62
  else if c = '/' then some 63
  else none

def b64Bytes : List Nat → List Nat
  | a :: b :: c :: d :: rest =>
      (a * 4 + b / 16) :: ((b % 16) * 16 + c / 4) :: ((c % 4) * 64 + d) :: b64Bytes rest
  | [a, b] => [a * 4 + b / 16]
  | [a, b, c] => [a * 4 + b / 16, (b % 16) * 16 + c / 4]
  | _ => []

def base64Decode (s : String) : String :=
  String.mk ((b64Bytes (s.toList.filterMap b64Val)).map Char.ofNat)

/- Character-list implementations of the string operations the server
uses (split, trim, startsWith, slice). -/

def splitOnCharAux (sep : Char) : List Char → List Char → List String
  | [], acc => [String.mk acc.reverse]
  | c :: rest, acc =>
    if c = sep then String.mk acc.reverse :: splitOnCharAux sep rest []
    else splitOnCharAux sep rest (c :: acc)

/-- s.split(sep) for a one-character separator. -/
def splitOnChar (sep : Char) (s : String) : List String :=
  splitOnCharAux sep s.data []

def isPrefixChars : List Char → List Char → Bool
  | [], _ => true
  | _ :: _, [] => false
  | a :: as, b :: bs => decide (a = b) && isPrefixChars as bs

/-- s.startsWith(p). -/
def strStartsWith (s p : String) : Bool :=
  isPrefixChars p.data s.data

/-- s.slice(n) (character count). -/
def strDrop (s : String) (n : Nat) : String :=
  String.mk (s.data.drop n)

/-- s.trim(). -/
def strTrim (s : String) : String :=
  String.mk (((s.data.dropWhile Char.isWhitespace).reverse.dropWhile Char.isWhitespace).reverse)

/- ===================== Data model =====================
Port of the shared type definitions (types.ts) with JS objects as
association lists from digest/name strings. -/

structure AuthEntry where
  username : String
  password : String
deriving DecidableEq, Repr

structure RepositoryEntry where
  name : String
deriving DecidableEq, Repr

structure TagEntry where
  tag : String
  digest : String
deriving DecidableEq, Repr

inductive ManifestType
  | oci
  | docker
  | ociIndex
  | dockerList
deriving DecidableEq, Repr

structure Descriptor where
  mediaType : String
  digest : String
  size : Nat
deriving DecidableEq, Repr

structure PlatformInfo where
  architecture : String
  os : String
deriving DecidableEq, Repr

structure PlatformDescriptor where
  mediaType : String
  digest : String
  size : Nat
  platform : PlatformInfo
deriving DecidableEq, Repr

structure ManifestData where
  schemaVersion : Nat
  mediaType : String
  config : Option Descriptor
  layers : Option (List Descriptor)
  manifests : Option (List PlatformDescriptor)
deriving DecidableEq, Repr

structure Manifest where
  type : ManifestType
  data : ManifestData
deriving DecidableEq, Repr

structure ImageHistoryEntry where
  created : Option String
  created_by : Option String
  comment : Option String
  empty_layer : Option Bool
deriving DecidableEq, Repr

structure ImageRootFS where
  type : String
  diff_ids : List String
deriving DecidableEq, Repr

/-- OCI image config section.  ExposedPorts and Volumes are
Record<string, {}> in the source; only the keys carry information. -/
structure ImageConfig where
  Env : Option (List String)
  Cmd : Option (List String)
  WorkingDir : Option String
  Labels : Option (List (String × String))
  StopSignal : Option String
  User : Option String
  ExposedPorts : Option (List String)
  Volumes : Option (List String)
  Entrypoint : Option (List String)
deriving DecidableEq, Repr

structure ConfigBlob where
  architecture : String
  os : String
  created : String
  config : ImageConfig
  rootfs : ImageRootFS
  history : List ImageHistoryEntry
deriving DecidableEq, Repr

structure Database where
  auth : List AuthEntry
  repositories : List RepositoryEntry
  tags : List (String × List TagEntry)
  manifests : List (String × Manifest)
  blobs : List (String × ConfigBlob)
deriving DecidableEq, Repr

/-- Port of DEFAULT_DATABASE (constants.ts). -/
def DEFAULT_DATABASE : Database :=
  { auth := [], repositories := [], tags := [], manifests := [], blobs := [] }

inductive ImageFormat
  | oci
  | docker
deriving DecidableEq, Repr

structure TemplateRepository where
  name : String
  tags : List String
  format : Option ImageFormat
  multiarch : Option Bool
  architectures : Option (List String)
  os : Option String
deriving DecidableEq, Repr

structure Template where
  auth : Option (List AuthEntry)
  repositories : List TemplateRepository
deriving DecidableEq, Repr

/- ===================== Association-list operations =====================
JS object semantics: lookup finds the (unique) key; obj[k] = v replaces
in place or appends; delete obj[k] removes the key. -/

def alookup {α : Type} : List (String × α) → String → Option α
  | [], _ => none
  | p :: rest, k => if p.1 = k then some p.2 else alookup rest k

def setKey {α : Type} (m : List (String × α)) (k : String) (v : α) : List (String × α) :=
  if (alookup m k).isSome then m.map (fun p => if p.1 = k then (k, v) else p)
  else m ++ [(k, v)]

def delKey {α : Type} : List (String × α) → String → List (String × α)
  | [], _ => []
  | p :: rest, k => if p.1 = k then delKey rest k else p :: delKey rest k

def keepKeys {α : Type} : List (String × α) → List String → List (String × α)
  | [], _ => []
  | p :: rest, ks => if p.1 ∈ ks then p :: keepKeys rest ks else keepKeys rest ks

/- ===================== JSON serialization =====================
Models JSON.stringify on the objects the source builds, with fields in
JS insertion order and undefined (none) fields omitted. -/

def lbrace : String := String.singleton (Char.ofNat 123)

def rbrace : String := String.singleton (Char.ofNat 125)

def jsonEscapeChar (c : Char) : String :=
  if c = '"' then "\\\""
  else if c = '\\' then "\\\\"
  else if c = '\n' then "\\n"
  else if c = '\r' then "\\r"
  else if c = '\t' then "\\t"
  else String.singleton c

def jsonStr (s : String) : String :=
  "\"" ++ String.join (s.toList.map jsonEscapeChar) ++ "\""

def jsonArr (elems : List String) : String :=
  "[" ++ String.intercalate "," elems ++ "]"

def jsonObj (fields : List (String × String)) : String :=
  lbrace ++ String.intercalate "," (fields.map (fun f => jsonStr f.1 ++ ":" ++ f.2)) ++ rbrace

def jsonBool (b : Bool) : String := if b then "true" else "false"

def optField (name : String) {α : Type} (v : Option α) (ser : α → String) :
    List (String × String) :=
  match v with
  | some x => [(name, ser x)]
  | none => []

def serializeDescriptor (d : Descriptor) : String :=
  jsonObj [("mediaType", jsonStr d.mediaType), ("digest", jsonStr d.digest),
           ("size", toString d.size)]

def serializePlatformDescriptor (d : PlatformDescriptor) : String :=
  jsonObj [("mediaType", jsonStr d.mediaType), ("digest", jsonStr d.digest),
           ("size", toString d.size),
           ("platform", jsonObj [("architecture", jsonStr d.platform.architecture),
                                 ("os", jsonStr d.platform.os)])]

def serializeManifestData (m : ManifestData) : String :=
  jsonObj ([("schemaVersion", toString m.schemaVersion), ("mediaType", jsonStr m.mediaType)]
    ++ optField "config" m.config serializeDescriptor
    ++ optField "layers" m.layers (fun ls => jsonArr (ls.map serializeDescriptor))
    ++ optField "manifests" m.manifests (fun ms => jsonArr (ms.map serializePlatformDescriptor)))

def serializeStrList (l : List String) : String := jsonArr (l.map jsonStr)

def serializeEmptyObjRecord (keys : List String) : String :=
  jsonObj (keys.map (fun k => (k, lbrace ++ rbrace)))

def serializeLabels (l : List (String × String)) : String :=
  jsonObj (l.map (fun p => (p.1, jsonStr p.2)))

def serializeImageConfig (c : ImageConfig) : String :=
  jsonObj (optField "Env" c.Env serializeStrList
    ++ optField "Cmd" c.Cmd serializeStrList
    ++ optField "WorkingDir" c.WorkingDir jsonStr
    ++ optField "Labels" c.Labels serializeLabels
    ++ optField "StopSignal" c.StopSignal jsonStr
    ++ optField "User" c.User jsonStr
    ++ optField "ExposedPorts" c.ExposedPorts serializeEmptyObjRecord
    ++ optField "Volumes" c.Volumes serializeEmptyObjRecord
    ++ optField "Entrypoint" c.Entrypoint serializeStrList)

def serializeHistoryEntry (h : ImageHistoryEntry) : String :=
  jsonObj (optField "created" h.created jsonStr
    ++ optField "created_by" h.created_by jsonStr
    ++ optField "comment" h.comment jsonStr
    ++ optField "empty_layer" h.empty_layer jsonBool)

def serializeConfigBlob (b : ConfigBlob) : String :=
  jsonObj [("architecture", jsonStr b.architecture), ("os", jsonStr b.os),
           ("created", jsonStr b.created),
           ("config", serializeImageConfig b.config),
           ("rootfs", jsonObj [("type", jsonStr b.rootfs.type),
                               ("diff_ids", serializeStrList b.rootfs.diff_ids)]),
           ("history", jsonArr (b.history.map serializeHistoryEntry))]

/- ===================== Content negotiation =====================
Port of selectManifestFormat (server). -/

def ociManifestMT : String := "application/vnd.oci.image.manifest.v1+json"

def dockerManifestMT : String := "application/vnd.docker.distribution.manifest.v2+json"

def ociIndexMT : String := "application/vnd.oci.image.index.v1+json"

def dockerListMT : String := "application/vnd.docker.distribution.manifest.list.v2+json"

def typeToMediaType : ManifestType → String
  | .ociIndex => ociIndexMT
  | .dockerList => dockerListMT
  | .oci => ociManifestMT
  | .docker => dockerManifestMT

/-- accept.split(",").map(t => t.trim()) collected as a set. -/
def acceptTypes (accept : String) : List String :=
  (splitOnChar ',' accept).map strTrim

/-- Port of selectManifestFormat; the source's for-loops over the two
single-arch (resp. multi-arch) media types are unrolled. -/
def selectManifestFormat (accept : String) (m : Manifest) :
    Option (ManifestData × String) :=
  let ats := acceptTypes accept
  let contentType := typeToMediaType m.type
  if contentType ∈ ats then some (m.data, contentType)
  else if m.type = .oci ∨ m.type = .docker then
    if ociManifestMT ∈ ats then some ({ m.data with mediaType := ociManifestMT }, ociManifestMT)
    else if dockerManifestMT ∈ ats then
      some ({ m.data with mediaType := dockerManifestMT }, dockerManifestMT)
    else none
  else if m.type = .ociIndex ∨ m.type = .dockerList then
    if ociIndexMT ∈ ats then some ({ m.data with mediaType := ociIndexMT }, ociIndexMT)
    else if dockerListMT ∈ ats then
      some ({ m.data with mediaType := dockerListMT }, dockerListMT)
    else none
  else none

/- ===================== Server request logic ===================== -/

inductive RegError
  | nameUnknown
  | manifestUnknown
  | blobUnknown
  | digestInvalid
  | paginationInvalid
  | unsupported
  | unauthorized
  | invalidRequest
deriving DecidableEq, Repr

/-- Error taxonomy, code to HTTP status. -/
def errStatus : RegError → Nat
  | .nameUnknown => 404
  | .manifestUnknown => 404
  | .blobUnknown => 404
  | .digestInvalid => 400
  | .paginationInvalid => 400
  | .unsupported => 406
  | .unauthorized => 401
  | .invalidRequest => 400

/-- headers.accept || "application/vnd.docker.distribution.manifest.v2+json". -/
def effectiveAccept : Option String → String
  | none => dockerManifestMT
  | some a => if a = "" then dockerManifestMT else a

/-- Reference resolution shared by manifest GET/HEAD/DELETE. -/
def resolveReference (db : Database) (name reference : String) : Option String :=
  if strStartsWith reference "sha256:" then some reference
  else
    match ((alookup db.tags name).getD []).find? (fun t => decide (t.tag = reference)) with
    | some tagEntry => some tagEntry.digest
    | none => none

/-- db.data.repositories.some(r => r.name === name). -/
def repoExists (db : Database) (name : String) : Bool :=
  db.repositories.any (fun r => decide (r.name = name))

/-- Port of findOrphanedBlobs: the set of config digests referenced by
the given manifests (the name is the source's, where it denotes the
referenced — retained — set). -/
def findOrphanedBlobs (manifests : List (String × Manifest)) : List String :=
  manifests.filterMap (fun p => p.2.data.config.map (fun c => c.digest))

/-- The mutation block of the DELETE handler: remove the manifest,
filter the owning repository's tags, and keep only blobs referenced by
some remaining manifest's config.digest. -/
def removeDigestTags : List TagEntry → String → List TagEntry
  | [], _ => []
  | t :: rest, d => if t.digest = d then removeDigestTags rest d else t :: removeDigestTags rest d

def updTags (tags : List (String × List TagEntry)) (name digest : String) :
    List (String × List TagEntry) :=
  tags.map (fun p => if p.1 = name then (p.1, removeDigestTags p.2 digest) else p)

def mkDeleted (db : Database) (name digest : String) : Database :=
  let manifests' := delKey db.manifests digest
  { db with
    manifests := manifests'
    tags := updTags db.tags name digest
    blobs := keepKeys db.blobs (findOrphanedBlobs manifests') }

/-- Port of the DELETE /v2/:name/manifests/:reference handler (a 202
with the mutated database on success). -/
def deleteManifestCore (db : Database) (name reference accept : String) :
    Except RegError Database :=
  if repoExists db name then
    match resolveReference db name reference with
    | none => .error .manifestUnknown
    | some digest =>
      match alookup db.manifests digest with
      | none => .error .manifestUnknown
      | some manifestEntry =>
        match selectManifestFormat accept manifestEntry with
        | none => .error .unsupported
        | some _ => .ok (mkDeleted db name digest)
  else .error .nameUnknown

def deleteManifest (db : Database) (name reference : String) (accept? : Option String) :
    Except RegError Database :=
  deleteManifestCore db name reference (effectiveAccept accept?)

/-- Response of a successful manifest GET (or its 304 variant). -/
structure ManifestResponse where
  status : Nat
  contentType : Option String
  dockerContentDigest : Option String
  etag : Option String
  body : Option ManifestData
deriving DecidableEq, Repr

/-- ETag: quoted digest of the exact JSON served. -/
def etagOf (served : ManifestData) : String :=
  "\"" ++ computeDigest (serializeManifestData served) ++ "\""

/-- Port of the GET /v2/:name/manifests/:reference handler. -/
def getManifestCore (db : Database) (name reference accept : String)
    (ifNoneMatch? : Option String) : Except RegError ManifestResponse :=
  if repoExists db name then
    match resolveReference db name reference with
    | none => .error .manifestUnknown
    | some digest =>
      match alookup db.manifests digest with
      | none => .error .manifestUnknown
      | some manifestEntry =>
        match selectManifestFormat accept manifestEntry with
        | none => .error .unsupported
        | some sel =>
          let etag := etagOf sel.1
          if ifNoneMatch? = some etag then
            .ok { status := 304, contentType := none, dockerContentDigest := none,
                  etag := none, body := none }
          else
            .ok { status := 200, contentType := some sel.2, dockerContentDigest := some digest,
                  etag := some etag, body := some sel.1 }
  else .error .nameUnknown

def getManifest (db : Database) (name reference : String)
    (accept? ifNoneMatch? : Option String) : Except RegError ManifestResponse :=
  getManifestCore db name reference (effectiveAccept accept?) ifNoneMatch?

/-- Response of a successful manifest HEAD. -/
structure HeadResponse where
  status : Nat
  contentType : Option String
  dockerContentDigest : Option String
  etag : Option String
  contentLength : Option String
deriving DecidableEq, Repr

/-- Port of the HEAD /v2/:name/manifests/:reference handler. -/
def headManifestCore (db : Database) (name reference accept : String) :
    Except RegError HeadResponse :=
  if repoExists db name then
    match resolveReference db name reference with
    | none => .error .manifestUnknown
    | some digest =>
      match alookup db.manifests digest with
      | none => .error .manifestUnknown
      | some manifestEntry =>
        match selectManifestFormat accept manifestEntry with
        | none => .error .unsupported
        | some sel =>
          let manifestJson := serializeManifestData sel.1
          .ok { status := 200, contentType := some sel.2, dockerContentDigest := some digest,
                etag := some (etagOf sel.1),
                contentLength := some (toString manifestJson.utf8ByteSize) }
  else .error .nameUnknown

def headManifest (db : Database) (name reference : String) (accept? : Option String) :
    Except RegError HeadResponse :=
  headManifestCore db name reference (effectiveAccept accept?)

/- ===================== Pagination ===================== -/

def buildLinkHeader (baseUrl : String) (n : Nat) (last : String) : String :=
  "<" ++ baseUrl ++ "?n=" ++ toString n ++ "&last=" ++ last ++ ">; rel=\"next\""

/-- Cursor application: if `last` is truthy and found, drop everything
up to and including its first occurrence. -/
def applyCursor (items : List String) (last? : Option String) : List String :=
  match last? with
  | none => items
  | some l =>
    if l = "" then items
    else
      match items.findIdx? (fun s => decide (s = l)) with
      | some i => items.drop (i + 1)
      | none => items

/-- Shared pagination core of the catalog and tag-list handlers: cursor,
then truncation to n with a Link header naming the page's last item. -/
def paginateList (baseUrl : String) (items : List String) (n? : Option Int)
    (last? : Option String) : Except RegError (List String × Option String) :=
  match n? with
  | some n =>
    if n ≤ 0 then .error .paginationInvalid
    else
      let remaining := applyCursor items last?
      if remaining.length > n.toNat then
        let page := remaining.take n.toNat
        .ok (page,
          if page.length > 0 then
            some (buildLinkHeader baseUrl n.toNat ((page.getLast?).getD ""))
          else none)
      else .ok (remaining, none)
  | none => .ok (applyCursor items last?, none)

def sortStrings (l : List String) : List String :=
  l.insertionSort (fun a b => a ≤ b)

/-- Port of GET /v2/_catalog. -/
def catalogHandler (db : Database) (n? : Option Int) (last? : Option String) :
    Except RegError (List String × Option String) :=
  paginateList "/v2/_catalog" (sortStrings (db.repositories.map (fun r => r.name))) n? last?

/-- Port of GET /v2/:name/tags/list. -/
def tagsHandler (db : Database) (name : String) (n? : Option Int) (last? : Option String) :
    Except RegError (List String × Option String) :=
  if repoExists db name then
    paginateList ("/v2/" ++ name ++ "/tags/list")
      (sortStrings (((alookup db.tags name).getD []).map (fun t => t.tag))) n? last?
  else .error .nameUnknown

/- ===================== Authentication gate ===================== -/

/-- Port of checkBasicAuth. -/
def checkBasicAuth (auth : List AuthEntry) (authHeader : Option String) : Bool :=
  if auth = [] then true
  else
    match authHeader with
    | none => false
    | some h =>
      if strStartsWith h "Basic " then
        let credentials := base64Decode (strDrop h 6)
        let parts := splitOnChar ':' credentials
        let username := (parts.get? 0).getD ""
        let password? := parts.get? 1
        auth.any (fun u => decide (u.username = username ∧ some u.password = password?))
      else false

structure GateResponse where
  status : Nat
  wwwAuthenticate : Option String
deriving DecidableEq, Repr

def unauthorizedResponse : GateResponse :=
  { status := 401, wwwAuthenticate := some "Basic realm=\"Docker Registry\"" }

/-- Port of the onBeforeHandle hook (the throttle sleep aside): none
means the request proceeds to its handler. -/
def authGate (db : Database) (path : String) (authHeader : Option String) :
    Option GateResponse :=
  if path ≠ "/v2/" ∧ path ≠ "/swagger" ∧ ¬ strStartsWith path "/swagger/" then
    if checkBasicAuth db.auth authHeader then none else some unauthorizedResponse
  else none

/- ===================== Synthetic generator =====================
Port of generator.ts.  Math.random, faker.* and randomUUID are drawn
from an injected Oracle stream, one draw per source call, threaded by a
counter. -/

structure Oracle where
  nat : Nat → Nat
  str : Nat → String

/-- Math.floor(Math.random() * (max - min + 1)) + min. -/
def generateRandomSize (o : Oracle) (i min max : Nat) : Nat × Nat :=
  (min + o.nat i % (max - min + 1), i + 1)

/-- generateLayerBlob: a fresh random token "layer-<uuid>-<size>" whose
digest becomes the layer's content address. -/
def generateLayerBlob (o : Oracle) (i : Nat) : (String × Nat) × Nat :=
  let size := (generateRandomSize o i 1000000 100000000).1
  let randomData := "layer-" ++ o.str (i + 1) ++ "-" ++ toString size
  ((computeDigest randomData, size), i + 2)

def genLayers (o : Oracle) (i count : Nat) : List (String × Nat) × Nat :=
  (List.range count).foldl
    (fun acc _ =>
      let r := generateLayerBlob o acc.2
      (acc.1 ++ [r.1], r.2))
    ([], i)

def historyCommands : List String :=
  ["RUN /bin/sh -c apt-get update && apt-get install -y --no-install-recommends",
   "COPY . /app",
   "RUN /bin/sh -c mkdir -p /app",
   "ENV NODE_VERSION=20.0.0",
   "WORKDIR /app"]

/-- History entry per layer: the base layer first, then the fixed
command cycle with a randomly flipped empty_layer marker
(Math.random() > 0.7 modelled as a 3-in-10 oracle draw). -/
def buildHistory (o : Oracle) (os : String) : List String → Nat → Nat →
    List ImageHistoryEntry × Nat
  | [], _, i => ([], i)
  | _ :: rest, idx, i =>
    if idx = 0 then
      let entry : ImageHistoryEntry :=
        { created := some (o.str i), created_by := some ("# " ++ os ++ " base layer"),
          comment := some "buildkit.dockerfile.v0", empty_layer := none }
      let r := buildHistory o os rest (idx + 1) (i + 1)
      (entry :: r.1, r.2)
    else
      let entry : ImageHistoryEntry :=
        { created := some (o.str i),
          created_by := some (historyCommands.getD (idx % 5) ""),
          comment := some "buildkit.dockerfile.v0",
          empty_layer := some (decide (7 ≤ o.nat (i + 1) % 10)) }
      let r := buildHistory o os rest (idx + 1) (i + 2)
      (entry :: r.1, r.2)

def licenseChoices : List String :=
  ["Apache-2.0", "MIT", "BSD-3-Clause", "GPL-3.0", "ISC"]

def pathEnv : String :=
  "PATH=/usr/local/sbin:/usr/local/bin:/usr/sbin:/usr/bin:/sbin:/bin"

/-- The curated enrichment for postgres/redis/nginx (a static lookup,
field insertion order as in the source). -/
def enrichConfig (repoName : String) (c : ImageConfig) : ImageConfig :=
  if repoName = "postgres" ∨ repoName = "redis" ∨ repoName = "nginx" then
    let c :=
      { c with
        User := some "999"
        ExposedPorts := some [(if repoName = "postgres" then "5432"
                               else if repoName = "redis" then "6379" else "80") ++ "/tcp"] }
    if repoName = "postgres" then
      { c with
        Env := some ((c.Env.getD []) ++ ["POSTGRES_VERSION=16", "PGDATA=/var/lib/postgresql/data"])
        Volumes := some ["/var/lib/postgresql/data"]
        Entrypoint := some ["docker-entrypoint.sh"]
        Cmd := some ["postgres"] }
    else if repoName = "redis" then
      { c with
        Env := some ((c.Env.getD []) ++ ["REDIS_VERSION=7.2"])
        Volumes := some ["/data"]
        Cmd := some ["redis-server"] }
    else
      { c with
        Env := some ((c.Env.getD []) ++ ["NGINX_VERSION=1.25.3"])
        Cmd := some ["nginx", "-g", "daemon off;"]
        StopSignal := some "SIGQUIT" }
  else c

/-- Port of generateConfigBlob. -/
def generateConfigBlob (o : Oracle) (i : Nat) (arch os : String)
    (layerDigests : List String) (repoName : String) : ConfigBlob × Nat :=
  let now := o.str i
  let hist := buildHistory o os layerDigests 0 (i + 1)
  let version := o.str hist.2
  let description := o.str (hist.2 + 1)
  let username := o.str (hist.2 + 2)
  let license := licenseChoices.getD (o.nat (hist.2 + 3) % 5) ""
  let config : ImageConfig :=
    { Env := some [pathEnv, "APP_VERSION=" ++ version, "APP_NAME=" ++ repoName]
      Cmd := some ["/bin/sh", "-c", repoName]
      WorkingDir := some "/app"
      Labels := some
        [("org.opencontainers.image.created", now),
         ("org.opencontainers.image.title", repoName),
         ("org.opencontainers.image.description", description),
         ("org.opencontainers.image.source", "https://github.com/" ++ username ++ "/" ++ repoName),
         ("org.opencontainers.image.version", version),
         ("org.opencontainers.image.licenses", license)]
      StopSignal := some "SIGTERM"
      User := none
      ExposedPorts := none
      Volumes := none
      Entrypoint := none }
  ({ architecture := arch, os := os, created := now,
     config := enrichConfig repoName config,
     rootfs := { type := "layers", diff_ids := layerDigests },
     history := hist.1 }, hist.2 + 4)

def formatType : ImageFormat → ManifestType
  | .oci => .oci
  | .docker => .docker

def indexType : ImageFormat → ManifestType
  | .oci => .ociIndex
  | .docker => .dockerList

/-- Port of generateManifest. -/
def generateManifest (format : ImageFormat) (configDigest : String) (configSize : Nat)
    (layers : List (String × Nat)) : ManifestData :=
  { schemaVersion := 2
    mediaType := match format with
      | .oci => ociManifestMT
      | .docker => dockerManifestMT
    config := some
      { mediaType := match format with
          | .oci => "application/vnd.oci.image.config.v1+json"
          | .docker => "application/vnd.docker.container.image.v1+json"
        digest := configDigest
        size := configSize }
    layers := some (layers.map (fun l =>
      { mediaType := match format with
          | .oci => "application/vnd.oci.image.layer.v1.tar+gzip"
          | .docker => "application/vnd.docker.image.rootfs.diff.tar.gzip"
        digest := l.1
        size := l.2 }))
    manifests := none }

structure PlatformSource where
  digest : String
  size : Nat
  arch : String
  os : String
deriving DecidableEq, Repr

/-- Port of generateManifestIndex. -/
def generateManifestIndex (format : ImageFormat) (platformManifests : List PlatformSource) :
    ManifestData :=
  { schemaVersion := 2
    mediaType := match format with
      | .oci => ociIndexMT
      | .docker => dockerListMT
    config := none
    layers := none
    manifests := some (platformManifests.map (fun pm =>
      { mediaType := match format with
          | .oci => ociManifestMT
          | .docker => dockerManifestMT
        digest := pm.digest
        size := pm.size
        platform := { architecture := pm.arch, os := pm.os } })) }

structure GenImageOut where
  db : Database
  digest : String
  size : Nat
  idx : Nat

/-- One single-architecture image: layers, config blob, manifest; the
blob and manifest are stored under their content digests. -/
def genImage (o : Oracle) (i : Nat) (format : ImageFormat) (arch os repoName : String)
    (db : Database) : GenImageOut :=
  let lc := generateRandomSize o i 1 5
  let ls := genLayers o lc.2 lc.1
  let layerDigests := ls.1.map (fun l => l.1)
  let cb := generateConfigBlob o ls.2 arch os layerDigests repoName
  let configJson := serializeConfigBlob cb.1
  let configDigest := computeDigest configJson
  let configSize := configJson.utf8ByteSize
  let db1 := { db with blobs := setKey db.blobs configDigest cb.1 }
  let manifest := generateManifest format configDigest configSize ls.1
  let manifestJson := serializeManifestData manifest
  let manifestDigest := computeDigest manifestJson
  let manifestSize := manifestJson.utf8ByteSize
  let entry : Manifest := { type := formatType format, data := manifest }
  { db := { db1 with manifests := setKey db1.manifests manifestDigest entry }
    digest := manifestDigest
    size := manifestSize
    idx := cb.2 }

/-- db.data.tags[repo.name]!.push(entry). -/
def pushTag (tags : List (String × List TagEntry)) (name : String) (e : TagEntry) :
    List (String × List TagEntry) :=
  setKey tags name (((alookup tags name).getD []) ++ [e])

structure PlatState where
  db : Database
  pms : List PlatformSource
  idx : Nat

def genPlatform (o : Oracle) (format : ImageFormat) (os repoName : String)
    (s : PlatState) (arch : String) : PlatState :=
  let r := genImage o s.idx format arch os repoName s.db
  { db := r.db
    pms := s.pms ++ [{ digest := r.digest, size := r.size, arch := arch, os := os }]
    idx := r.idx }

structure GenState where
  db : Database
  idx : Nat

/-- Per-tag generation: a platform index over all architectures when
multiarch, otherwise a single image for architectures[0]. -/
def genTagStep (o : Oracle) (format : ImageFormat) (multiarch : Bool)
    (architectures : List String) (os repoName : String) (s : GenState) (tag : String) :
    GenState :=
  if multiarch then
    let r := architectures.foldl (genPlatform o format os repoName)
      { db := s.db, pms := [], idx := s.idx }
    let index := generateManifestIndex format r.pms
    let indexJson := serializeManifestData index
    let indexDigest := computeDigest indexJson
    let indexEntry : Manifest := { type := indexType format, data := index }
    let db1 := { r.db with manifests := setKey r.db.manifests indexDigest indexEntry }
    { db := { db1 with tags := pushTag db1.tags repoName { tag := tag, digest := indexDigest } }
      idx := r.idx }
  else
    let arch := architectures.headD "amd64"
    let r := genImage o s.idx format arch os repoName s.db
    { db := { r.db with tags := pushTag r.db.tags repoName { tag := tag, digest := r.digest } }
      idx := r.idx }

/-- Per-repository generation: push the repository entry, reset its tag
list, then generate each tag. -/
def genRepoStep (o : Oracle) (s : GenState) (repo : TemplateRepository) : GenState :=
  let format := repo.format.getD .oci
  let os := repo.os.getD "linux"
  let multiarch := repo.multiarch.getD false
  let architectures := repo.architectures.getD ["amd64", "arm64"]
  let db0 := { s.db with
    repositories := s.db.repositories ++ [{ name := repo.name }]
    tags := setKey s.db.tags repo.name [] }
  repo.tags.foldl (genTagStep o format multiarch architectures os repo.name)
    { db := db0, idx := s.idx }

/-- Port of generateDatabase: replaces auth with the template's (or []),
then generates every repository against the live database. -/
def generateDatabase (template : Template) (db : Database) (o : Oracle) (i : Nat) :
    Database :=
  (template.repositories.foldl (genRepoStep o)
    { db := { db with auth := template.auth.getD [] }, idx := i }).db

/-- Port of the POST /v2/push handler: run the generator against the
live database and answer 201. -/
def pushHandler (db : Database) (body : Template) (o : Oracle) (i : Nat) : Database × Nat :=
  (generateDatabase body db o i, 201)

/- ===================== Invariants and laws ===================== -/

/-- Invariant 2 of §3: repositories named in tags exist. -/
def inv2 (db : Database) : Prop :=
  ∀ p ∈ db.tags, ∃ r ∈ db.repositories, r.name = p.1

/-- Invariant 3 of §3: every tag digest is a manifest key. -/
def inv3 (db : Database) : Prop :=
  ∀ p ∈ db.tags, ∀ t ∈ p.2, (alookup db.manifests t.digest).isSome

/-- Invariant 4 of §3: every config digest is a blob key. -/
def inv4 (db : Database) : Prop :=
  ∀ p ∈ db.manifests, ∀ c ∈ p.2.data.config, (alookup db.blobs c.digest).isSome

/-- Invariant 5 of §3: every nested multi-arch digest is a manifest key. -/
def inv5 (db : Database) : Prop :=
  ∀ p ∈ db.manifests, (p.2.type = .ociIndex ∨ p.2.type = .dockerList) →
    ∀ pm ∈ p.2.data.manifests.getD [], (alookup db.manifests pm.digest).isSome

/-- Invariant 1 of §3, the §8 round-trip law: each stored digest key equals
the content digest of the exact serialized artifact it stores. -/
def contentLaw (db : Database) : Prop :=
  (∀ p ∈ db.manifests, p.1 = computeDigest (serializeManifestData p.2.data)) ∧
  (∀ p ∈ db.blobs, p.1 = computeDigest (serializeConfigBlob p.2))

instance {ε α : Type} [DecidableEq ε] [DecidableEq α] : DecidableEq (Except ε α) :=
  fun a b =>
    match a, b with
    | .ok x, .ok y =>
      if h : x = y then isTrue (by rw [h]) else isFalse (fun he => h (Except.ok.inj he))
    | .error x, .error y =>
      if h : x = y then isTrue (by rw [h]) else isFalse (fun he => h (Except.error.inj he))
    | .ok _, .error _ => isFalse (fun he => Except.noConfusion he)
    | .error _, .ok _ => isFalse (fun he => Except.noConfusion he)

instance (db : Database) : Decidable (inv2 db) := by unfold inv2; infer_instance

instance (db : Database) : Decidable (inv3 db) := by unfold inv3; infer_instance

instance (db : Database) : Decidable (inv4 db) := by unfold inv4; infer_instance

instance (db : Database) : Decidable (inv5 db) := by unfold inv5; infer_instance

instance (db : Database) : Decidable (contentLaw db) := by unfold contentLaw; infer_instance

/- ===================== Association-list lemmas ===================== -/

theorem alookup_append {α : Type} (m l : List (String × α)) (k : String) :
    alookup (m ++ l) k = match alookup m k with
      | some v => some v
      | none => alookup l k := by
  induction m with
  | nil => simp [alookup]
  | cons p rest ih =>
    by_cases h : p.1 = k <;> simp [alookup, h, ih]

theorem alookup_map_set {α : Type} (m : List (String × α)) (k k' : String) (v : α) :
    alookup (m.map (fun p => if p.1 = k then (k, v) else p)) k' =
      if k' = k then (if (alookup m k).isSome then some v else none)
      else alookup m k' := by
  induction m with
  | nil => simp [alookup]
  | cons p rest ih =>
    by_cases hp : p.1 = k
    · by_cases hk : k' = k
      · subst hk
        simp [alookup, hp, ih]
      · have hpk' : p.1 ≠ k' := by rw [hp]; exact fun he => hk he.symm
        simp [alookup, hp, hk, hpk', ih, Ne.symm hk]
    · by_cases hpk : p.1 = k'
      · have hk : ¬ (k' = k) := fun he => hp (hpk.trans he)
        simp [alookup, hp, hpk, hk]
      · simp [alookup, hp, hpk, ih]

theorem alookup_setKey_self {α : Type} (m : List (String × α)) (k : String) (v : α) :
    alookup (setKey m k v) k = some v := by
  unfold setKey
  by_cases h : (alookup m k).isSome
  · rw [if_pos h, alookup_map_set]
    simp [h]
  · rw [if_neg h, alookup_append]
    have hn : alookup m k = none := Option.not_isSome_iff_eq_none.mp h
    simp [hn, alookup]

theorem alookup_setKey_ne {α : Type} (m : List (String × α)) (k k' : String) (v : α)
    (h : k' ≠ k) : alookup (setKey m k v) k' = alookup m k' := by
  unfold setKey
  by_cases hs : (alookup m k).isSome
  · rw [if_pos hs, alookup_map_set, if_neg h]
  · rw [if_neg hs, alookup_append]
    cases hm : alookup m k' with
    | some w => simp
    | none => simp [alookup, show k ≠ k' from fun he => h he.symm]

theorem alookup_setKey_isSome {α : Type} (m : List (String × α)) (k k' : String) (v : α)
    (h : (alookup m k').isSome) : (alookup (setKey m k v) k').isSome := by
  by_cases hk : k' = k
  · subst hk; simp [alookup_setKey_self]
  · rw [alookup_setKey_ne m k k' v hk]; exact h

theorem mem_setKey {α : Type} {m : List (String × α)} {k : String} {v : α}
    {p : String × α} (h : p ∈ setKey m k v) : p ∈ m ∨ p = (k, v) := by
  unfold setKey at h
  by_cases hs : (alookup m k).isSome
  · rw [if_pos hs] at h
    obtain ⟨q, hq, he⟩ := List.mem_map.mp h
    by_cases hqk : q.1 = k
    · right; rw [if_pos hqk] at he; exact he.symm
    · left; rw [if_neg hqk] at he; exact he ▸ hq
  · rw [if_neg hs] at h
    rcases List.mem_append.mp h with h | h
    · left; exact h
    · right; simpa using h

theorem mem_delKey {α : Type} {m : List (String × α)} {k : String} {p : String × α} :
    p ∈ delKey m k ↔ p ∈ m ∧ p.1 ≠ k := by
  induction m with
  | nil => simp [delKey]
  | cons q rest ih =>
    simp only [delKey]
    by_cases h : q.1 = k
    · rw [if_pos h, ih]
      constructor
      · rintro ⟨hm, hk⟩; exact ⟨List.mem_cons_of_mem q hm, hk⟩
      · rintro ⟨hm, hk⟩
        rcases List.mem_cons.mp hm with he | hm
        · exact absurd ((congrArg Prod.fst he).trans h) hk
        · exact ⟨hm, hk⟩
    · rw [if_neg h]
      constructor
      · intro hp
        rcases List.mem_cons.mp hp with he | hp
        · refine ⟨List.mem_cons.mpr (Or.inl he), ?_⟩
          intro hk
          exact h (((congrArg Prod.fst he).symm.trans hk))
        · exact ⟨List.mem_cons_of_mem q (ih.mp hp).1, (ih.mp hp).2⟩
      · rintro ⟨hm, hk⟩
        rcases List.mem_cons.mp hm with he | hm
        · exact List.mem_cons.mpr (Or.inl he)
        · exact List.mem_cons.mpr (Or.inr (ih.mpr ⟨hm, hk⟩))

theorem alookup_delKey_ne {α : Type} (m : List (String × α)) (k k' : String)
    (h : k' ≠ k) : alookup (delKey m k) k' = alookup m k' := by
  induction m with
  | nil => simp [delKey]
  | cons q rest ih =>
    simp only [delKey]
    by_cases hq : q.1 = k
    · rw [if_pos hq, ih]
      have hq' : q.1 ≠ k' := by rw [hq]; exact fun he => h he.symm
      simp [alookup, hq']
    · rw [if_neg hq]
      by_cases hqk : q.1 = k'
      · simp [alookup, hqk]
      · simp [alookup, hqk, ih]

theorem mem_keepKeys {α : Type} {m : List (String × α)} {ks : List String}
    {p : String × α} : p ∈ keepKeys m ks ↔ p ∈ m ∧ p.1 ∈ ks := by
  induction m with
  | nil => simp [keepKeys]
  | cons q rest ih =>
    simp only [keepKeys]
    by_cases h : q.1 ∈ ks
    · rw [if_pos h]
      constructor
      · intro hp
        rcases List.mem_cons.mp hp with he | hp
        · exact ⟨List.mem_cons.mpr (Or.inl he), (congrArg Prod.fst he) ▸ h⟩
        · exact ⟨List.mem_cons_of_mem q (ih.mp hp).1, (ih.mp hp).2⟩
      · rintro ⟨hm, hk⟩
        rcases List.mem_cons.mp hm with he | hm
        · exact List.mem_cons.mpr (Or.inl he)
        · exact List.mem_cons.mpr (Or.inr (ih.mpr ⟨hm, hk⟩))
    · rw [if_neg h, ih]
      constructor
      · rintro ⟨hm, hk⟩; exact ⟨List.mem_cons_of_mem q hm, hk⟩
      · rintro ⟨hm, hk⟩
        rcases List.mem_cons.mp hm with he | hm
        · exact absurd ((congrArg Prod.fst he) ▸ hk) h
        · exact ⟨hm, hk⟩

theorem alookup_keepKeys {α : Type} (m : List (String × α)) (ks : List String)
    (k : String) :
    alookup (keepKeys m ks) k = if k ∈ ks then alookup m k else none := by
  induction m with
  | nil => simp [keepKeys, alookup]
  | cons q rest ih =>
    simp only [keepKeys]
    by_cases hq : q.1 ∈ ks
    · by_cases hqk : q.1 = k
      · subst hqk
        rw [if_pos hq]
        simp [alookup, hq]
      · rw [if_pos hq]
        simp [alookup, hqk, ih]
    · by_cases hqk : q.1 = k
      · subst hqk
        rw [if_neg hq, ih]
        simp [hq]
      · rw [if_neg hq, ih]
        simp [alookup, hqk]

theorem mem_removeDigestTags {ts : List TagEntry} {d : String} {t : TagEntry} :
    t ∈ removeDigestTags ts d ↔ t ∈ ts ∧ t.digest ≠ d := by
  induction ts with
  | nil => simp [removeDigestTags]
  | cons u rest ih =>
    simp only [removeDigestTags]
    by_cases h : u.digest = d
    · rw [if_pos h, ih]
      constructor
      · rintro ⟨hm, hk⟩; exact ⟨List.mem_cons_of_mem u hm, hk⟩
      · rintro ⟨hm, hk⟩
        rcases List.mem_cons.mp hm with he | hm
        · exact absurd ((congrArg TagEntry.digest he).trans h) hk
        · exact ⟨hm, hk⟩
    · rw [if_neg h]
      constructor
      · intro hp
        rcases List.mem_cons.mp hp with he | hp
        · refine ⟨List.mem_cons.mpr (Or.inl he), ?_⟩
          intro hk
          exact h (((congrArg TagEntry.digest he).symm.trans hk))
        · exact ⟨List.mem_cons_of_mem u (ih.mp hp).1, (ih.mp hp).2⟩
      · rintro ⟨hm, hk⟩
        rcases List.mem_cons.mp hm with he | hm
        · exact List.mem_cons.mpr (Or.inl he)
        · exact List.mem_cons.mpr (Or.inr (ih.mpr ⟨hm, hk⟩))

theorem mem_updTags {tags : List (String × List TagEntry)} {name d : String}
    {p : String × List TagEntry} (h : p ∈ updTags tags name d) :
    ∃ q ∈ tags, p = (if q.1 = name then (q.1, removeDigestTags q.2 d) else q) := by
  unfold updTags at h
  obtain ⟨q, hq, he⟩ := List.mem_map.mp h
  exact ⟨q, hq, he.symm⟩

theorem mem_findOrphanedBlobs {ms : List (String × Manifest)} {b : String} :
    b ∈ findOrphanedBlobs ms ↔
      ∃ p ∈ ms, ∃ c, p.2.data.config = some c ∧ c.digest = b := by
  unfold findOrphanedBlobs
  constructor
  · intro h
    obtain ⟨p, hp, he⟩ := List.mem_filterMap.mp h
    obtain ⟨c, hc, hb⟩ := Option.map_eq_some'.mp he
    exact ⟨p, hp, c, hc, hb⟩
  · rintro ⟨p, hp, c, hc, hb⟩
    exact List.mem_filterMap.mpr ⟨p, hp, by rw [hc]; simp [hb]⟩

/-- Fold invariant preservation. -/
theorem foldl_inv {α β : Type} (P : α → Prop) (f : α → β → α) (l : List β) (init : α)
    (h0 : P init) (hstep : ∀ a b, b ∈ l → P a → P (f a b)) : P (l.foldl f init) := by
  induction l generalizing init with
  | nil => exact h0
  | cons x xs ih =>
    exact ih (f init x) (hstep init x (List.mem_cons_self x xs) h0)
      (fun a b hb => hstep a b (List.mem_cons_of_mem x hb))

/- ===================== Delete handler lemmas ===================== -/

theorem mkDeleted_manifests (db : Database) (name d : String) :
    (mkDeleted db name d).manifests = delKey db.manifests d := rfl

theorem mkDeleted_tags (db : Database) (name d : String) :
    (mkDeleted db name d).tags = updTags db.tags name d := rfl

theorem mkDeleted_blobs (db : Database) (name d : String) :
    (mkDeleted db name d).blobs =
      keepKeys db.blobs (findOrphanedBlobs (delKey db.manifests d)) := rfl

theorem mkDeleted_repositories (db : Database) (name d : String) :
    (mkDeleted db name d).repositories = db.repositories := rfl

/-- Inversion of a successful DELETE: the result is exactly the
mkDeleted mutation at the resolved digest. -/
theorem deleteManifest_ok {db db' : Database} {name ref : String} {accept? : Option String}
    (h : deleteManifest db name ref accept? = .ok db') :
    ∃ d, resolveReference db name ref = some d ∧
      (alookup db.manifests d).isSome ∧ db' = mkDeleted db name d := by
  unfold deleteManifest deleteManifestCore at h
  split at h
  · split at h
    next hres => exact absurd h (by simp)
    next d hres =>
      split at h
      next hm => exact absurd h (by simp)
      next me hm =>
        split at h
        next hs => exact absurd h (by simp)
        next sel hs =>
          exact ⟨d, hres, by rw [hm]; rfl, (Except.ok.inj h).symm⟩
  · exact absurd h (by simp)

/- ===================== Claim C1 ===================== -/

/-- C1: after every successful DELETE of a manifest, a blob key is
retained exactly when it is still referenced as some remaining
manifest's config.digest and was present before; on databases
satisfying §3 invariant 4 the retained blob keys are exactly the
referenced set, so every unreferenced blob is dropped and no blob still
referenced by a surviving manifest is removed. -/
theorem c1_delete_blob_gc (db db' : Database) (name ref : String) (accept? : Option String)
    (hok : deleteManifest db name ref accept? = .ok db') :
    (∀ b, (alookup db'.blobs b).isSome ↔
        ((alookup db.blobs b).isSome ∧ b ∈ findOrphanedBlobs db'.manifests)) ∧
    (inv4 db → ∀ b, (alookup db'.blobs b).isSome ↔ b ∈ findOrphanedBlobs db'.manifests) := by
  obtain ⟨d, _, _, hdb⟩ := deleteManifest_ok hok
  subst hdb
  have base : ∀ b, (alookup (mkDeleted db name d).blobs b).isSome ↔
      ((alookup db.blobs b).isSome ∧ b ∈ findOrphanedBlobs (mkDeleted db name d).manifests) := by
    intro b
    rw [mkDeleted_blobs, mkDeleted_manifests, alookup_keepKeys]
    by_cases hb : b ∈ findOrphanedBlobs (delKey db.manifests d)
    · simp [hb]
    · simp [hb]
  refine ⟨base, fun hi4 b => ⟨fun h => ((base b).mp h).2, fun hb => ?_⟩⟩
  obtain ⟨p, hp, c, hc, hcd⟩ :=
    mem_findOrphanedBlobs.mp (mkDeleted_manifests db name d ▸ hb)
  have hpm : p ∈ db.manifests := (mem_delKey.mp hp).1
  have hblob : (alookup db.blobs c.digest).isSome :=
    hi4 p hpm c (by rw [hc]; rfl)
  exact (base b).mpr ⟨hcd ▸ hblob, hb⟩

def sampleImageConfig : ImageConfig :=
  { Env := none, Cmd := none, WorkingDir := none, Labels := none, StopSignal := none,
    User := none, ExposedPorts := none, Volumes := none, Entrypoint := none }

def sampleBlob : ConfigBlob :=
  { architecture := "amd64", os := "linux", created := "2024-01-01",
    config := sampleImageConfig,
    rootfs := { type := "layers", diff_ids := [] }, history := [] }

def c1ManifestDigest : String := "sha256:1111111111111111"

def c1BlobDigest : String := "sha256:2222222222222222"

def c1Manifest : Manifest :=
  { type := .oci
    data := { schemaVersion := 2, mediaType := ociManifestMT,
              config := some { mediaType := "application/vnd.oci.image.config.v1+json",
                               digest := c1BlobDigest, size := 100 },
              layers := some [], manifests := none } }

def c1Db : Database :=
  { auth := []
    repositories := [{ name := "alpine" }]
    tags := [("alpine", [{ tag := "latest", digest := c1ManifestDigest }])]
    manifests := [(c1ManifestDigest, c1Manifest)]
    blobs := [(c1BlobDigest, sampleBlob)] }

theorem c1_delete_blob_gc_witness :
    deleteManifest c1Db "alpine" c1ManifestDigest none = .ok (mkDeleted c1Db "alpine" c1ManifestDigest) ∧
    inv4 c1Db ∧
    (∀ b, (alookup (mkDeleted c1Db "alpine" c1ManifestDigest).blobs b).isSome ↔
      b ∈ findOrphanedBlobs (mkDeleted c1Db "alpine" c1ManifestDigest).manifests) :=
  ⟨by decide, by decide,
   (c1_delete_blob_gc c1Db (mkDeleted c1Db "alpine" c1ManifestDigest) "alpine" c1ManifestDigest
      none (by decide)).2 (by decide)⟩

/- ===================== Claim C2 ===================== -/

/-- C2 (amended): a successful DELETE preserves invariants 2 and 4 of
§3 unconditionally on any database satisfying the §3 referential
invariants, and it preserves invariant 3 provided no tag of a
repository other than the addressed one references the deleted digest,
and invariant 5 provided no other manifest's nested manifest list
references it — the handler only filters the owning repository's tags
and never rewrites surviving multi-arch indexes, so both invariant 3
and invariant 5 can be violated when such a reference survives. -/
theorem c2_delete_invariants (db db' : Database) (name ref : String) (accept? : Option String)
    (d : String)
    (hok : deleteManifest db name ref accept? = .ok db')
    (hres : resolveReference db name ref = some d)
    (h2 : inv2 db) (h3 : inv3 db) (h4 : inv4 db) (h5 : inv5 db) :
    inv2 db' ∧ inv4 db' ∧
    ((∀ p ∈ db.tags, p.1 ≠ name → ∀ t ∈ p.2, t.digest ≠ d) → inv3 db') ∧
    ((∀ p ∈ db.manifests, p.1 ≠ d → ∀ pm ∈ p.2.data.manifests.getD [], pm.digest ≠ d) →
        inv5 db') := by
  obtain ⟨d0, hres0, _, hdb⟩ := deleteManifest_ok hok
  rw [hres] at hres0
  injection hres0 with hd
  subst hd
  subst hdb
  refine ⟨?_, ?_, ?_, ?_⟩
  · -- invariant 2, unconditionally
    intro p hp
    obtain ⟨q, hq, he⟩ := mem_updTags (mkDeleted_tags db name d ▸ hp)
    have hp1 : p.1 = q.1 := by
      by_cases hqn : q.1 = name
      · rw [if_pos hqn] at he; rw [he]
      · rw [if_neg hqn] at he; rw [he]
    obtain ⟨r, hr, hrn⟩ := h2 q hq
    rw [mkDeleted_repositories]
    exact ⟨r, hr, by rw [hrn, hp1]⟩
  · -- invariant 4, unconditionally
    intro p hp c hc
    have hp' : p ∈ delKey db.manifests d := mkDeleted_manifests db name d ▸ hp
    have hpm : p ∈ db.manifests := (mem_delKey.mp hp').1
    rw [mkDeleted_blobs, alookup_keepKeys]
    have hin : c.digest ∈ findOrphanedBlobs (delKey db.manifests d) :=
      mem_findOrphanedBlobs.mpr ⟨p, hp', c, Option.mem_def.mp hc, rfl⟩
    rw [if_pos hin]
    exact h4 p hpm c hc
  · -- invariant 3, given no foreign tag references the deleted digest
    intro hc3 p hp t ht
    obtain ⟨q, hq, he⟩ := mem_updTags (mkDeleted_tags db name d ▸ hp)
    rw [mkDeleted_manifests]
    by_cases hqn : q.1 = name
    · rw [if_pos hqn] at he
      rw [he] at ht
      obtain ⟨htq, htd⟩ := mem_removeDigestTags.mp ht
      rw [alookup_delKey_ne db.manifests d t.digest htd]
      exact h3 q hq t htq
    · rw [if_neg hqn] at he
      rw [he] at ht
      have htd : t.digest ≠ d := hc3 q hq hqn t ht
      rw [alookup_delKey_ne db.manifests d t.digest htd]
      exact h3 q hq t ht
  · -- invariant 5, given no surviving index references the deleted digest
    intro hc5 p hp hty pm hpm5
    have hp' : p ∈ delKey db.manifests d := mkDeleted_manifests db name d ▸ hp
    obtain ⟨hpm, hpne⟩ := mem_delKey.mp hp'
    have hd5 : pm.digest ≠ d := hc5 p hpm hpne pm hpm5
    rw [mkDeleted_manifests, alookup_delKey_ne db.manifests d pm.digest hd5]
    exact h5 p hpm hty pm hpm5

def c2ManifestDigest : String := "sha256:3333333333333333"

def c2BlobDigest : String := "sha256:4444444444444444"

def c2Manifest : Manifest :=
  { type := .oci
    data := { schemaVersion := 2, mediaType := ociManifestMT,
              config := some { mediaType := "application/vnd.oci.image.config.v1+json",
                               digest := c2BlobDigest, size := 100 },
              layers := some [], manifests := none } }

def c2IndexDigest : String := "sha256:3434343434343434"

/-- A surviving multi-arch index whose nested list references the
single-arch manifest that the counterexample deletes. -/
def c2IndexManifest : Manifest :=
  { type := .ociIndex
    data := { schemaVersion := 2, mediaType := ociIndexMT,
              config := none, layers := none,
              manifests := some [{ mediaType := ociManifestMT, digest := c2ManifestDigest,
                                   size := 100,
                                   platform := { architecture := "amd64", os := "linux" } }] } }

/-- A database where two repositories tag the same manifest digest and
a multi-arch index also references it. -/
def c2Db : Database :=
  { auth := []
    repositories := [{ name := "a" }, { name := "b" }]
    tags := [("a", [{ tag := "t", digest := c2ManifestDigest }]),
             ("b", [{ tag := "s", digest := c2ManifestDigest }])]
    manifests := [(c2ManifestDigest, c2Manifest), (c2IndexDigest, c2IndexManifest)]
    blobs := [(c2BlobDigest, sampleBlob)] }

/-- C2 counterexample: c2Db satisfies invariants 2-5, the DELETE of the
manifest through repository "a" succeeds, and the resulting database
violates invariant 3 — repository "b"'s tag still references the
deleted digest — and invariant 5 — the surviving multi-arch index still
references it in its nested manifest list. -/
theorem c2_delete_invariants_cex :
    inv2 c2Db ∧ inv3 c2Db ∧ inv4 c2Db ∧ inv5 c2Db ∧
    deleteManifest c2Db "a" c2ManifestDigest none =
      .ok (mkDeleted c2Db "a" c2ManifestDigest) ∧
    ¬ inv3 (mkDeleted c2Db "a" c2ManifestDigest) ∧
    ¬ inv5 (mkDeleted c2Db "a" c2ManifestDigest) := by
  decide

def c2wDb : Database :=
  { auth := []
    repositories := [{ name := "a" }]
    tags := [("a", [{ tag := "t", digest := c2ManifestDigest }])]
    manifests := [(c2ManifestDigest, c2Manifest)]
    blobs := [(c2BlobDigest, sampleBlob)] }

theorem c2_delete_invariants_witness :
    deleteManifest c2wDb "a" c2ManifestDigest none =
      .ok (mkDeleted c2wDb "a" c2ManifestDigest) ∧
    (inv2 (mkDeleted c2wDb "a" c2ManifestDigest) ∧
     inv4 (mkDeleted c2wDb "a" c2ManifestDigest) ∧
     inv3 (mkDeleted c2wDb "a" c2ManifestDigest) ∧
     inv5 (mkDeleted c2wDb "a" c2ManifestDigest)) :=
  ⟨by decide,
   ⟨(c2_delete_invariants c2wDb (mkDeleted c2wDb "a" c2ManifestDigest) "a" c2ManifestDigest
       none c2ManifestDigest (by decide) (by decide) (by decide) (by decide) (by decide)
       (by decide)).1,
    (c2_delete_invariants c2wDb (mkDeleted c2wDb "a" c2ManifestDigest) "a" c2ManifestDigest
       none c2ManifestDigest (by decide) (by decide) (by decide) (by decide) (by decide)
       (by decide)).2.1,
    (c2_delete_invariants c2wDb (mkDeleted c2wDb "a" c2ManifestDigest) "a" c2ManifestDigest
       none c2ManifestDigest (by decide) (by decide) (by decide) (by decide) (by decide)
       (by decide)).2.2.1 (by decide),
    (c2_delete_invariants c2wDb (mkDeleted c2wDb "a" c2ManifestDigest) "a" c2ManifestDigest
       none c2ManifestDigest (by decide) (by decide) (by decide) (by decide) (by decide)
       (by decide)).2.2.2 (by decide)⟩⟩

/- ===================== Claim C4 ===================== -/

theorem findIdx_split (l : String) (pre post : List String) (h : l ∉ pre) (i : Nat) :
    List.findIdx? (fun s => decide (s = l)) (pre ++ l :: post) i = some (pre.length + i) := by
  induction pre generalizing i with
  | nil => simp [List.findIdx?_cons]
  | cons a as ih =>
    have ha : a ≠ l := fun he => h (he ▸ List.mem_cons_self a as)
    rw [List.cons_append, List.findIdx?_cons, if_neg (by simp [ha]),
        ih (fun hm => h (List.mem_cons_of_mem a hm)) (i + 1)]
    congr 1
    simp
    omega

/-- C4: pagination over a served sorted sequence: a present nonempty
cursor drops everything up to and including its first occurrence, an
absent cursor leaves the sequence unchanged; if the remainder exceeds n
the page is exactly the first n items with a Link header
<base?n=N&last=LAST>; rel="next" whose LAST is the page's final item,
and otherwise the full remainder is returned without a Link header. -/
theorem c4_pagination (base : String) (items : List String) (k : Int)
    (last? : Option String) (hk : 0 < k) :
    (∀ l pre post, last? = some l → l ≠ "" → items = pre ++ l :: post → l ∉ pre →
        applyCursor items last? = post) ∧
    (∀ l, last? = some l → l ∉ items → applyCursor items last? = items) ∧
    ((applyCursor items last?).length > k.toNat →
        paginateList base items (some k) last? =
          .ok ((applyCursor items last?).take k.toNat,
               some ("<" ++ base ++ "?n=" ++ toString k.toNat ++ "&last="
                     ++ (((applyCursor items last?).take k.toNat).getLast?.getD "")
                     ++ ">; rel=\"next\""))) ∧
    ((applyCursor items last?).length ≤ k.toNat →
        paginateList base items (some k) last? = .ok (applyCursor items last?, none)) := by
  refine ⟨?_, ?_, ?_, ?_⟩
  · intro l pre post hl hne hsplit hnotpre
    subst hl
    subst hsplit
    simp only [applyCursor]
    rw [if_neg hne, findIdx_split l pre post hnotpre 0]
    show List.drop (pre.length + 0 + 1) (pre ++ l :: post) = post
    rw [Nat.add_zero, ← List.drop_drop, List.drop_left, List.drop_one]
    rfl
  · intro l hl hnot
    subst hl
    simp only [applyCursor]
    by_cases hne : l = ""
    · rw [if_pos hne]
    · rw [if_neg hne]
      rw [List.findIdx?_eq_none_iff.mpr (fun x hx => by
        simp
        exact fun he => hnot (he ▸ hx))]
  · intro hlen
    simp only [paginateList]
    rw [if_neg (show ¬ k ≤ 0 by omega), if_pos hlen]
    have hpos : 0 < ((applyCursor items last?).take k.toNat).length := by
      rw [List.length_take]
      have : 0 < k.toNat := by omega
      omega
    rw [if_pos hpos]
    rfl
  · intro hlen
    simp only [paginateList]
    rw [if_neg (show ¬ k ≤ 0 by omega), if_neg (show ¬ (applyCursor items last?).length > k.toNat by omega)]

theorem c4_pagination_witness :
    applyCursor ["a", "b", "c", "d"] (some "a") = ["b", "c", "d"] ∧
    ((applyCursor ["a", "b", "c", "d"] (some "a")).length > (2 : Int).toNat) ∧
    paginateList "/v2/_catalog" ["a", "b", "c", "d"] (some 2) (some "a") =
      .ok ((applyCursor ["a", "b", "c", "d"] (some "a")).take (2 : Int).toNat,
           some ("<" ++ "/v2/_catalog" ++ "?n=" ++ toString (2 : Int).toNat ++ "&last="
                 ++ (((applyCursor ["a", "b", "c", "d"] (some "a")).take
                        (2 : Int).toNat).getLast?.getD "")
                 ++ ">; rel=\"next\"")) :=
  ⟨(c4_pagination "/v2/_catalog" ["a", "b", "c", "d"] 2 (some "a") (by decide)).1
      "a" [] ["b", "c", "d"] rfl (by decide) rfl (by decide),
   by decide,
   (c4_pagination "/v2/_catalog" ["a", "b", "c", "d"] 2 (some "a") (by decide)).2.2.1
      (by decide)⟩

/- ===================== Claim C5 ===================== -/

/-- C5: content negotiation: when the stored manifest's canonical media
type is in the tokenized Accept set, the stored body is returned
verbatim with that content type; when it is not, a single-arch (oci or
docker) manifest is returned with only its mediaType overwritten to
whichever single-arch type is accepted, symmetrically for multi-arch
manifests with the index/list types, and when no acceptable type can be
produced the result is none (the handlers answer 406 UNSUPPORTED). -/
theorem c5_content_negotiation (a : String) (m : Manifest) :
    (typeToMediaType m.type ∈ acceptTypes a →
        selectManifestFormat a m = some (m.data, typeToMediaType m.type)) ∧
    (typeToMediaType m.type ∉ acceptTypes a →
      ((m.type = .oci ∨ m.type = .docker) →
        (∀ mt, mt ∈ [ociManifestMT, dockerManifestMT] → mt ∈ acceptTypes a →
            selectManifestFormat a m = some ({ m.data with mediaType := mt }, mt)) ∧
        (ociManifestMT ∉ acceptTypes a → dockerManifestMT ∉ acceptTypes a →
            selectManifestFormat a m = none)) ∧
      ((m.type = .ociIndex ∨ m.type = .dockerList) →
        (∀ mt, mt ∈ [ociIndexMT, dockerListMT] → mt ∈ acceptTypes a →
            selectManifestFormat a m = some ({ m.data with mediaType := mt }, mt)) ∧
        (ociIndexMT ∉ acceptTypes a → dockerListMT ∉ acceptTypes a →
            selectManifestFormat a m = none))) := by
  constructor
  · intro h
    simp only [selectManifestFormat]
    rw [if_pos h]
  · intro h
    constructor
    · intro hsingle
      constructor
      · intro mt hmt hin
        simp only [selectManifestFormat]
        rw [if_neg h, if_pos hsingle]
        rcases List.mem_cons.mp hmt with he | he
        · subst he
          rw [if_pos hin]
        · simp only [List.mem_cons, List.not_mem_nil, or_false] at he
          subst he
          have hoci : ociManifestMT ∉ acceptTypes a := by
            rcases hsingle with ht | ht
            · rw [ht] at h; simpa [typeToMediaType] using h
            · rw [ht] at h
              exact absurd hin (by simpa [typeToMediaType] using h)
          rw [if_neg hoci, if_pos hin]
      · intro h1 h2
        simp only [selectManifestFormat]
        rw [if_neg h, if_pos hsingle, if_neg h1, if_neg h2]
    · intro hmulti
      have hnot : ¬ (m.type = .oci ∨ m.type = .docker) := by
        rcases hmulti with ht | ht <;> rw [ht] <;> simp
      constructor
      · intro mt hmt hin
        simp only [selectManifestFormat]
        rw [if_neg h, if_neg hnot, if_pos hmulti]
        rcases List.mem_cons.mp hmt with he | he
        · subst he
          rw [if_pos hin]
        · simp only [List.mem_cons, List.not_mem_nil, or_false] at he
          subst he
          have hidx : ociIndexMT ∉ acceptTypes a := by
            rcases hmulti with ht | ht
            · rw [ht] at h; simpa [typeToMediaType] using h
            · rw [ht] at h
              exact absurd hin (by simpa [typeToMediaType] using h)
          rw [if_neg hidx, if_pos hin]
      · intro h1 h2
        simp only [selectManifestFormat]
        rw [if_neg h, if_neg hnot, if_pos hmulti, if_neg h1, if_neg h2]

def c5Data : ManifestData :=
  { schemaVersion := 2, mediaType := ociManifestMT,
    config := some { mediaType := "application/vnd.oci.image.config.v1+json",
                     digest := "sha256:5555555555555555", size := 7 },
    layers := some [], manifests := none }

def c5Manifest : Manifest := { type := .oci, data := c5Data }

theorem c5_content_negotiation_witness :
    typeToMediaType c5Manifest.type ∉ acceptTypes dockerManifestMT ∧
    dockerManifestMT ∈ acceptTypes dockerManifestMT ∧
    selectManifestFormat dockerManifestMT c5Manifest =
      some ({ c5Data with mediaType := dockerManifestMT }, dockerManifestMT) :=
  ⟨by decide, by decide,
   (((c5_content_negotiation dockerManifestMT c5Manifest).2 (by decide)).1
      (by decide)).1 dockerManifestMT (by decide) (by decide)⟩

/- ===================== Claim C10 ===================== -/

/-- C10 (amended): a manifest GET/HEAD/DELETE without an Accept header
negotiates as if Accept were exactly the Docker v2 manifest type; under
that default a stored oci single-arch manifest is served with its
mediaType overwritten to the Docker v2 type, a stored docker manifest
is served verbatim (so its body's mediaType is the Docker v2 type only
when the stored body already carries it), and a stored multi-arch
manifest negotiates to none (the handlers answer 406 UNSUPPORTED). -/
theorem c10_default_accept (db : Database) (name ref : String) (inm : Option String)
    (m : Manifest) :
    effectiveAccept none = dockerManifestMT ∧
    getManifest db name ref none inm = getManifest db name ref (some dockerManifestMT) inm ∧
    headManifest db name ref none = headManifest db name ref (some dockerManifestMT) ∧
    deleteManifest db name ref none = deleteManifest db name ref (some dockerManifestMT) ∧
    (m.type = .oci →
        selectManifestFormat (effectiveAccept none) m =
          some ({ m.data with mediaType := dockerManifestMT }, dockerManifestMT)) ∧
    (m.type = .docker →
        selectManifestFormat (effectiveAccept none) m = some (m.data, dockerManifestMT)) ∧
    ((m.type = .ociIndex ∨ m.type = .dockerList) →
        selectManifestFormat (effectiveAccept none) m = none) := by
  have heff : effectiveAccept (some dockerManifestMT) = dockerManifestMT := by
    simp only [effectiveAccept]
    rw [if_neg (by decide)]
  have h1 : ociManifestMT ∉ acceptTypes dockerManifestMT := by decide
  have h2 : dockerManifestMT ∈ acceptTypes dockerManifestMT := by decide
  have h3 : ociIndexMT ∉ acceptTypes dockerManifestMT := by decide
  have h4 : dockerListMT ∉ acceptTypes dockerManifestMT := by decide
  refine ⟨rfl, ?_, ?_, ?_, ?_, ?_, ?_⟩
  · show getManifestCore db name ref (effectiveAccept none) inm =
      getManifestCore db name ref (effectiveAccept (some dockerManifestMT)) inm
    rw [heff]
    rfl
  · show headManifestCore db name ref (effectiveAccept none) =
      headManifestCore db name ref (effectiveAccept (some dockerManifestMT))
    rw [heff]
    rfl
  · show deleteManifestCore db name ref (effectiveAccept none) =
      deleteManifestCore db name ref (effectiveAccept (some dockerManifestMT))
    rw [heff]
    rfl
  · intro ht
    simp [selectManifestFormat, ht, typeToMediaType, effectiveAccept, h1, h2]
  · intro ht
    simp [selectManifestFormat, ht, typeToMediaType, effectiveAccept, h2]
  · intro ht
    rcases ht with ht | ht
    · simp [selectManifestFormat, ht, typeToMediaType, effectiveAccept, h3, h4]
    · simp [selectManifestFormat, ht, typeToMediaType, effectiveAccept, h3, h4]

def c10BogusData : ManifestData :=
  { schemaVersion := 2, mediaType := "application/bogus",
    config := some { mediaType := "application/vnd.docker.container.image.v1+json",
                     digest := "sha256:6666666666666666", size := 9 },
    layers := some [], manifests := none }

def c10BogusManifest : Manifest := { type := .docker, data := c10BogusData }

/-- C10 counterexample: with no Accept header, a stored docker-type
manifest whose stored body carries a different mediaType is served
verbatim, so the served body's mediaType is not overwritten to the
Docker v2 type as the claim states. -/
theorem c10_default_accept_cex :
    selectManifestFormat (effectiveAccept none) c10BogusManifest =
      some (c10BogusData, dockerManifestMT) ∧
    c10BogusData.mediaType ≠ dockerManifestMT := by
  decide

def c10OciData : ManifestData :=
  { schemaVersion := 2, mediaType := ociManifestMT,
    config := some { mediaType := "application/vnd.oci.image.config.v1+json",
                     digest := "sha256:7777777777777777", size := 3 },
    layers := some [], manifests := none }

def c10OciManifest : Manifest := { type := .oci, data := c10OciData }

theorem c10_default_accept_witness :
    c10OciManifest.type = ManifestType.oci ∧
    selectManifestFormat (effectiveAccept none) c10OciManifest =
      some ({ c10OciData with mediaType := dockerManifestMT }, dockerManifestMT) :=
  ⟨rfl,
   (c10_default_accept DEFAULT_DATABASE "a" "t" none c10OciManifest).2.2.2.2.1 rfl⟩

/- ===================== Claim C7 ===================== -/

theorem checkBasicAuth_iff (auth : List AuthEntry) (h : Option String) :
    checkBasicAuth auth h = true ↔
      (auth = [] ∨ ∃ s, h = some s ∧ strStartsWith s "Basic " = true ∧
        ∃ u ∈ auth,
          u.username = ((splitOnChar ':' (base64Decode (strDrop s 6))).get? 0).getD "" ∧
          some u.password = (splitOnChar ':' (base64Decode (strDrop s 6))).get? 1) := by
  by_cases hauth : auth = []
  · simp [checkBasicAuth, hauth]
  · simp only [checkBasicAuth, if_neg hauth]
    cases h with
    | none => simp [hauth]
    | some s =>
      by_cases hb : strStartsWith s "Basic "
      · simp [List.any_eq_true, hauth, hb]
      · simp [hauth, hb]

/-- C7 (amended): for every request to a path other than the health
check (and the out-of-scope swagger paths): the request passes the gate
iff auth is empty, or the request carries a Basic header whose
base64-decoded credential string, split on ':', has first segment equal
to some entry's username and second segment equal to that entry's
password — segments beyond the second are ignored, so a password
containing ':' can never match; every non-passing request receives the
401 response carrying the WWW-Authenticate Basic challenge. -/
theorem c7_auth_gate (db : Database) (path : String) (h : Option String)
    (hp : path ≠ "/v2/" ∧ path ≠ "/swagger" ∧ ¬ strStartsWith path "/swagger/") :
    (authGate db path h = none ↔
      (db.auth = [] ∨ ∃ s, h = some s ∧ strStartsWith s "Basic " = true ∧
        ∃ u ∈ db.auth,
          u.username = ((splitOnChar ':' (base64Decode (strDrop s 6))).get? 0).getD "" ∧
          some u.password = (splitOnChar ':' (base64Decode (strDrop s 6))).get? 1)) ∧
    (authGate db path h ≠ none → authGate db path h = some unauthorizedResponse) ∧
    unauthorizedResponse.status = 401 ∧
    unauthorizedResponse.wwwAuthenticate = some "Basic realm=\"Docker Registry\"" := by
  have hg : authGate db path h =
      (if checkBasicAuth db.auth h then none else some unauthorizedResponse) := by
    simp only [authGate]
    rw [if_pos hp]
  by_cases hc : checkBasicAuth db.auth h
  · rw [hg, if_pos hc]
    exact ⟨⟨fun _ => (checkBasicAuth_iff db.auth h).mp hc, fun _ => rfl⟩,
           fun hne => absurd rfl hne, rfl, rfl⟩
  · rw [hg, if_neg hc]
    exact ⟨⟨fun he => absurd he (by simp),
            fun hr => absurd ((checkBasicAuth_iff db.auth h).mpr hr) hc⟩,
           fun _ => rfl, rfl, rfl⟩

def c7Db : Database :=
  { auth := [{ username := "u", password := "a:b" }]
    repositories := [], tags := [], manifests := [], blobs := [] }

/-- C7 counterexample: the sole credential has password "a:b"; the
request carries a Basic header whose base64 payload decodes exactly to
"u" ++ ":" ++ "a:b", yet the gate answers 401 — split(":") keeps only
the segment between the first and second colon as the password. -/
theorem c7_auth_gate_cex :
    base64Decode "dTphOmI=" = "u" ++ ":" ++ "a:b" ∧
    authGate c7Db "/v2/_catalog" (some "Basic dTphOmI=") = some unauthorizedResponse := by
  decide

def c7wDb : Database :=
  { auth := [{ username := "admin", password := "admin123" }]
    repositories := [], tags := [], manifests := [], blobs := [] }

theorem c7_auth_gate_witness :
    authGate c7wDb "/v2/_catalog" none ≠ none ∧
    authGate c7wDb "/v2/_catalog" none = some unauthorizedResponse :=
  ⟨by decide, (c7_auth_gate c7wDb "/v2/_catalog" none (by decide)).2.1 (by decide)⟩

/- ===================== Generator frame lemmas ===================== -/

theorem genImage_auth (o : Oracle) (i : Nat) (f : ImageFormat) (a os rn : String)
    (db : Database) : (genImage o i f a os rn db).db.auth = db.auth := rfl

theorem genImage_repositories (o : Oracle) (i : Nat) (f : ImageFormat) (a os rn : String)
    (db : Database) : (genImage o i f a os rn db).db.repositories = db.repositories := rfl

theorem genImage_tags (o : Oracle) (i : Nat) (f : ImageFormat) (a os rn : String)
    (db : Database) : (genImage o i f a os rn db).db.tags = db.tags := rfl

theorem genPlatform_auth (o : Oracle) (f : ImageFormat) (os rn : String)
    (s : PlatState) (a : String) : (genPlatform o f os rn s a).db.auth = s.db.auth := rfl

theorem genPlatform_repositories (o : Oracle) (f : ImageFormat) (os rn : String)
    (s : PlatState) (a : String) :
    (genPlatform o f os rn s a).db.repositories = s.db.repositories := rfl

theorem genPlatform_tags (o : Oracle) (f : ImageFormat) (os rn : String)
    (s : PlatState) (a : String) : (genPlatform o f os rn s a).db.tags = s.db.tags := rfl

theorem alookup_pushTag_ne (tags : List (String × List TagEntry)) (name : String)
    (e : TagEntry) (k : String) (h : k ≠ name) :
    alookup (pushTag tags name e) k = alookup tags k :=
  alookup_setKey_ne _ _ _ _ h

theorem genImage_manifests_isSome (o : Oracle) (i : Nat) (f : ImageFormat) (a os rn : String)
    (db : Database) (k : String) (h : (alookup db.manifests k).isSome) :
    (alookup (genImage o i f a os rn db).db.manifests k).isSome :=
  alookup_setKey_isSome _ _ _ _ h

theorem genImage_blobs_isSome (o : Oracle) (i : Nat) (f : ImageFormat) (a os rn : String)
    (db : Database) (k : String) (h : (alookup db.blobs k).isSome) :
    (alookup (genImage o i f a os rn db).db.blobs k).isSome :=
  alookup_setKey_isSome _ _ _ _ h

theorem genTagStep_auth (o : Oracle) (f : ImageFormat) (ma : Bool) (archs : List String)
    (os rn : String) (s : GenState) (tag : String) :
    (genTagStep o f ma archs os rn s tag).db.auth = s.db.auth := by
  cases ma with
  | false => rfl
  | true =>
    show (archs.foldl (genPlatform o f os rn) ⟨s.db, [], s.idx⟩).db.auth = s.db.auth
    exact foldl_inv (fun st : PlatState => st.db.auth = s.db.auth) _ archs _ rfl
      (fun a b _ hb => (genPlatform_auth o f os rn a b).trans hb)

theorem genTagStep_repositories (o : Oracle) (f : ImageFormat) (ma : Bool)
    (archs : List String) (os rn : String) (s : GenState) (tag : String) :
    (genTagStep o f ma archs os rn s tag).db.repositories = s.db.repositories := by
  cases ma with
  | false => rfl
  | true =>
    show (archs.foldl (genPlatform o f os rn) ⟨s.db, [], s.idx⟩).db.repositories =
      s.db.repositories
    exact foldl_inv (fun st : PlatState => st.db.repositories = s.db.repositories) _ archs _ rfl
      (fun a b _ hb => (genPlatform_repositories o f os rn a b).trans hb)

theorem genTagStep_tags_ne (o : Oracle) (f : ImageFormat) (ma : Bool) (archs : List String)
    (os rn : String) (s : GenState) (tag : String) (k : String) (h : k ≠ rn) :
    alookup (genTagStep o f ma archs os rn s tag).db.tags k = alookup s.db.tags k := by
  cases ma with
  | false =>
    show alookup (pushTag (genImage o s.idx f (archs.headD "amd64") os rn s.db).db.tags rn _) k
      = alookup s.db.tags k
    rw [alookup_pushTag_ne _ _ _ _ h, genImage_tags]
  | true =>
    have hts : (archs.foldl (genPlatform o f os rn) ⟨s.db, [], s.idx⟩).db.tags = s.db.tags :=
      foldl_inv (fun st : PlatState => st.db.tags = s.db.tags) _ archs _ rfl
        (fun a b _ hb => (genPlatform_tags o f os rn a b).trans hb)
    show alookup (pushTag
        (archs.foldl (genPlatform o f os rn) ⟨s.db, [], s.idx⟩).db.tags rn _) k
      = alookup s.db.tags k
    rw [alookup_pushTag_ne _ _ _ _ h, hts]

theorem genTagStep_manifests_isSome (o : Oracle) (f : ImageFormat) (ma : Bool)
    (archs : List String) (os rn : String) (s : GenState) (tag : String) (k : String)
    (h : (alookup s.db.manifests k).isSome) :
    (alookup (genTagStep o f ma archs os rn s tag).db.manifests k).isSome := by
  cases ma with
  | false =>
    show (alookup (genImage o s.idx f (archs.headD "amd64") os rn s.db).db.manifests k).isSome
    exact genImage_manifests_isSome _ _ _ _ _ _ _ _ h
  | true =>
    have hr : (alookup
        (archs.foldl (genPlatform o f os rn) ⟨s.db, [], s.idx⟩).db.manifests k).isSome :=
      foldl_inv (fun st : PlatState => (alookup st.db.manifests k).isSome) _ archs _ h
        (fun a b _ hb => genImage_manifests_isSome _ _ _ _ _ _ _ _ hb)
    exact alookup_setKey_isSome _ _ _ _ hr

theorem genTagStep_blobs_isSome (o : Oracle) (f : ImageFormat) (ma : Bool)
    (archs : List String) (os rn : String) (s : GenState) (tag : String) (k : String)
    (h : (alookup s.db.blobs k).isSome) :
    (alookup (genTagStep o f ma archs os rn s tag).db.blobs k).isSome := by
  cases ma with
  | false =>
    show (alookup (genImage o s.idx f (archs.headD "amd64") os rn s.db).db.blobs k).isSome
    exact genImage_blobs_isSome _ _ _ _ _ _ _ _ h
  | true =>
    show (alookup
        (archs.foldl (genPlatform o f os rn) ⟨s.db, [], s.idx⟩).db.blobs k).isSome
    exact foldl_inv (fun st : PlatState => (alookup st.db.blobs k).isSome) _ archs _ h
      (fun a b _ hb => genImage_blobs_isSome _ _ _ _ _ _ _ _ hb)

theorem genRepoStep_auth (o : Oracle) (s : GenState) (repo : TemplateRepository) :
    (genRepoStep o s repo).db.auth = s.db.auth :=
  foldl_inv (fun st : GenState => st.db.auth = s.db.auth) _ repo.tags _ rfl
    (fun a b _ hb => (genTagStep_auth o _ _ _ _ repo.name a b).trans hb)

theorem genRepoStep_repositories (o : Oracle) (s : GenState) (repo : TemplateRepository) :
    (genRepoStep o s repo).db.repositories =
      s.db.repositories ++ [{ name := repo.name }] :=
  foldl_inv
    (fun st : GenState =>
      st.db.repositories = s.db.repositories ++ ([{ name := repo.name }] : List RepositoryEntry))
    _ repo.tags _ rfl
    (fun a b _ hb => (genTagStep_repositories o _ _ _ _ repo.name a b).trans hb)

theorem genRepoStep_tags_ne (o : Oracle) (s : GenState) (repo : TemplateRepository)
    (k : String) (h : k ≠ repo.name) :
    alookup (genRepoStep o s repo).db.tags k = alookup s.db.tags k :=
  foldl_inv (fun st : GenState => alookup st.db.tags k = alookup s.db.tags k) _ repo.tags _
    (alookup_setKey_ne _ _ _ _ h)
    (fun a b _ hb => (genTagStep_tags_ne o _ _ _ _ repo.name a b k h).trans hb)

theorem genRepoStep_manifests_isSome (o : Oracle) (s : GenState) (repo : TemplateRepository)
    (k : String) (h : (alookup s.db.manifests k).isSome) :
    (alookup (genRepoStep o s repo).db.manifests k).isSome :=
  foldl_inv (fun st : GenState => (alookup st.db.manifests k).isSome) _ repo.tags _ h
    (fun a b _ hb => genTagStep_manifests_isSome _ _ _ _ _ _ a b k hb)

theorem genRepoStep_blobs_isSome (o : Oracle) (s : GenState) (repo : TemplateRepository)
    (k : String) (h : (alookup s.db.blobs k).isSome) :
    (alookup (genRepoStep o s repo).db.blobs k).isSome :=
  foldl_inv (fun st : GenState => (alookup st.db.blobs k).isSome) _ repo.tags _ h
    (fun a b _ hb => genTagStep_blobs_isSome _ _ _ _ _ _ a b k hb)

/-- Every generator write stores a value under the digest of its own
serialization, so the round-trip law is preserved image by image. -/
theorem genImage_law (o : Oracle) (i : Nat) (f : ImageFormat) (a os rn : String)
    (db : Database) (h : contentLaw db) : contentLaw (genImage o i f a os rn db).db := by
  obtain ⟨hm, hb⟩ := h
  constructor
  · intro p hp
    rcases mem_setKey hp with hmem | he
    · exact hm p hmem
    · rw [he]
  · intro p hp
    rcases mem_setKey hp with hmem | he
    · exact hb p hmem
    · rw [he]

theorem genTagStep_law (o : Oracle) (f : ImageFormat) (ma : Bool) (archs : List String)
    (os rn : String) (s : GenState) (tag : String) (h : contentLaw s.db) :
    contentLaw (genTagStep o f ma archs os rn s tag).db := by
  cases ma with
  | false => exact genImage_law o s.idx f (archs.headD "amd64") os rn s.db h
  | true =>
    have hr : contentLaw (archs.foldl (genPlatform o f os rn) ⟨s.db, [], s.idx⟩).db :=
      foldl_inv (fun st : PlatState => contentLaw st.db) _ archs _ h
        (fun a b _ hb => genImage_law o a.idx f b os rn a.db hb)
    constructor
    · intro p hp
      rcases mem_setKey hp with hmem | he
      · exact hr.1 p hmem
      · rw [he]
    · intro p hp
      exact hr.2 p hp

theorem genRepoStep_law (o : Oracle) (s : GenState) (repo : TemplateRepository)
    (h : contentLaw s.db) : contentLaw (genRepoStep o s repo).db :=
  foldl_inv (fun st : GenState => contentLaw st.db) _ repo.tags _ h
    (fun a b _ hb => genTagStep_law o _ _ _ _ repo.name a b hb)

/- ===================== Claim C6 ===================== -/

/-- C6: starting from any database satisfying the round-trip
content-addressing law (in particular the empty default), the database
the generator produces satisfies it too: every manifests key equals
computeDigest of the JSON serialization of the stored manifest data,
every blobs key equals computeDigest of the serialized stored config
blob, and each such key begins with "sha256:". -/
theorem c6_content_addressing (t : Template) (db : Database) (o : Oracle) (i : Nat)
    (h : contentLaw db) :
    contentLaw (generateDatabase t db o i) ∧
    (∀ p ∈ (generateDatabase t db o i).manifests, ∃ r, p.1 = "sha256:" ++ r) ∧
    (∀ p ∈ (generateDatabase t db o i).blobs, ∃ r, p.1 = "sha256:" ++ r) := by
  have hlaw : contentLaw (generateDatabase t db o i) :=
    foldl_inv (fun st : GenState => contentLaw st.db) _ t.repositories _ h
      (fun a b _ hb => genRepoStep_law o a b hb)
  refine ⟨hlaw, fun p hp => ?_, fun p hp => ?_⟩
  · exact ⟨_, hlaw.1 p hp⟩
  · exact ⟨_, hlaw.2 p hp⟩

def c6Template : Template :=
  { auth := none
    repositories := [{ name := "alpine", tags := ["latest"], format := none,
                       multiarch := none, architectures := none, os := none }] }

def c6Oracle : Oracle := { nat := fun _ => 0, str := fun n => "s" ++ toString n }

theorem c6_content_addressing_witness :
    contentLaw DEFAULT_DATABASE ∧
    contentLaw (generateDatabase c6Template DEFAULT_DATABASE c6Oracle 0) :=
  ⟨by decide,
   (c6_content_addressing c6Template DEFAULT_DATABASE c6Oracle 0 (by decide)).1⟩

/- ===================== Claim C9 ===================== -/

/-- C9: after every push the database's auth list equals the payload
template's auth list, or the empty list when the payload carries none —
a push without auth therefore clears any existing credentials and
disables authentication for subsequent requests. -/
theorem c9_push_auth_replace (t : Template) (db : Database) (o : Oracle) (i : Nat) :
    (generateDatabase t db o i).auth = t.auth.getD [] ∧
    (pushHandler db t o i).1.auth = t.auth.getD [] ∧
    (pushHandler db t o i).2 = 201 ∧
    (t.auth = none → (generateDatabase t db o i).auth = []) := by
  have hauth : (generateDatabase t db o i).auth = t.auth.getD [] :=
    foldl_inv (fun st : GenState => st.db.auth = t.auth.getD []) _ t.repositories _ rfl
      (fun a b _ hb => (genRepoStep_auth o a b).trans hb)
  exact ⟨hauth, hauth, rfl, fun hn => by rw [hauth, hn]; rfl⟩

/- ===================== Claim C3 ===================== -/

/-- C3 (amended): a push is additive for repositories (the old list is
a prefix of the new), for manifest and blob keys (every key present
before is present after), and for the tag lists of repositories not
named in the payload; but the tag list of each pushed repository name
is reset before its new tags are appended, so tag entries of a
re-pushed name are not preserved. -/
theorem c3_push_additive (t : Template) (db : Database) (o : Oracle) (i : Nat) :
    (∃ suffix, (generateDatabase t db o i).repositories = db.repositories ++ suffix) ∧
    (∀ rn, rn ∉ t.repositories.map (fun r => r.name) →
        alookup (generateDatabase t db o i).tags rn = alookup db.tags rn) ∧
    (∀ k, (alookup db.manifests k).isSome →
        (alookup (generateDatabase t db o i).manifests k).isSome) ∧
    (∀ k, (alookup db.blobs k).isSome →
        (alookup (generateDatabase t db o i).blobs k).isSome) := by
  have main := foldl_inv
    (fun st : GenState =>
      (∃ suffix, st.db.repositories = db.repositories ++ suffix) ∧
      (∀ rn, rn ∉ t.repositories.map (fun r => r.name) →
          alookup st.db.tags rn = alookup db.tags rn) ∧
      (∀ k, (alookup db.manifests k).isSome → (alookup st.db.manifests k).isSome) ∧
      (∀ k, (alookup db.blobs k).isSome → (alookup st.db.blobs k).isSome))
    (genRepoStep o) t.repositories
    { db := { db with auth := t.auth.getD [] }, idx := i }
    ⟨⟨[], by simp⟩, fun rn _ => rfl, fun k hk => hk, fun k hk => hk⟩
    (fun a b hbmem hb => by
      obtain ⟨⟨suffix, hsuf⟩, htags, hman, hblob⟩ := hb
      refine ⟨⟨suffix ++ [{ name := b.name }], ?_⟩, ?_, ?_, ?_⟩
      · rw [genRepoStep_repositories, hsuf, List.append_assoc]
      · intro rn hrn
        have hne : rn ≠ b.name := by
          intro he
          exact hrn (List.mem_map.mpr ⟨b, hbmem, he.symm⟩)
        rw [genRepoStep_tags_ne o a b rn hne]
        exact htags rn hrn
      · intro k hk
        exact genRepoStep_manifests_isSome o a b k (hman k hk)
      · intro k hk
        exact genRepoStep_blobs_isSome o a b k (hblob k hk))
  exact main

def c3Db : Database :=
  { auth := []
    repositories := [{ name := "alpine" }]
    tags := [("alpine", [{ tag := "old", digest := "sha256:8888888888888888" }])]
    manifests := []
    blobs := [] }

def c3Template : Template :=
  { auth := none
    repositories := [{ name := "alpine", tags := [], format := none,
                       multiarch := none, architectures := none, os := none }] }

def c3Oracle : Oracle := { nat := fun _ => 0, str := fun _ => "" }

/-- C3 counterexample: pushing an already-existing repository name (here
with an empty tag list, so the run draws no randomness) erases the tag
entries that repository had before the push. -/
theorem c3_push_additive_cex :
    alookup c3Db.tags "alpine" =
      some [{ tag := "old", digest := "sha256:8888888888888888" }] ∧
    alookup (generateDatabase c3Template c3Db c3Oracle 0).tags "alpine" = some [] := by
  decide

theorem c3_push_additive_witness :
    ("other" ∉ c3Template.repositories.map (fun r => r.name)) ∧
    alookup (generateDatabase c3Template c3Db c3Oracle 0).tags "other" =
      alookup c3Db.tags "other" :=
  ⟨by decide,
   (c3_push_additive c3Template c3Db c3Oracle 0).2.1 "other" (by decide)⟩

/- ===================== Claim C8 ===================== -/

theorem quote_inj {x y : String} (h : "\"" ++ x ++ "\"" = "\"" ++ y ++ "\"") : x = y := by
  have hd : ('"' :: x.data) ++ ['"'] = ('"' :: y.data) ++ ['"'] := congrArg String.data h
  have hc : '"' :: x.data = '"' :: y.data := List.append_cancel_right hd
  exact congrArg String.mk (List.cons.inj hc).2

/-- C8: for every manifest GET whose resolution and negotiation
succeed, the ETag is the (quoted) digest of the exact JSON being
served; when If-None-Match equals that ETag the response is 304 with no
body and no content headers, otherwise 200 with Content-Type,
Docker-Content-Digest equal to the storage digest, ETag, and the served
body; equal ETags can only arise from equal digests of the served
JSON (so a body serving a different digest yields a different ETag, and
an unchanged manifest always yields the same ETag since the handler is
a pure function of the database and request). -/
theorem c8_manifest_etag (db : Database) (name ref : String) (accept? inm? : Option String)
    (digest : String) (m : Manifest) (served : ManifestData) (ct : String)
    (hrepo : repoExists db name = true)
    (hres : resolveReference db name ref = some digest)
    (hman : alookup db.manifests digest = some m)
    (hsel : selectManifestFormat (effectiveAccept accept?) m = some (served, ct)) :
    etagOf served = "\"" ++ computeDigest (serializeManifestData served) ++ "\"" ∧
    (inm? = some (etagOf served) →
        getManifest db name ref accept? inm? =
          .ok { status := 304, contentType := none, dockerContentDigest := none,
                etag := none, body := none }) ∧
    (inm? ≠ some (etagOf served) →
        getManifest db name ref accept? inm? =
          .ok { status := 200, contentType := some ct, dockerContentDigest := some digest,
                etag := some (etagOf served), body := some served }) ∧
    (∀ b1 b2 : ManifestData, etagOf b1 = etagOf b2 →
        computeDigest (serializeManifestData b1) = computeDigest (serializeManifestData b2)) := by
  have hget : getManifest db name ref accept? inm? =
      (if inm? = some (etagOf served) then
        .ok { status := 304, contentType := none, dockerContentDigest := none,
              etag := none, body := none }
       else
        .ok { status := 200, contentType := some ct, dockerContentDigest := some digest,
              etag := some (etagOf served), body := some served }) := by
    simp only [getManifest, getManifestCore, if_pos hrepo, hres, hman, hsel]
  refine ⟨rfl, fun hin => ?_, fun hin => ?_, fun b1 b2 he => quote_inj he⟩
  · rw [hget, if_pos hin]
  · rw [hget, if_neg hin]

def c8Digest : String := "sha256:9999999999999999"

def c8Data : ManifestData :=
  { schemaVersion := 2, mediaType := ociManifestMT,
    config := some { mediaType := "application/vnd.oci.image.config.v1+json",
                     digest := "sha256:aaaaaaaaaaaaaaaa", size := 5 },
    layers := some [], manifests := none }

def c8Db : Database :=
  { auth := []
    repositories := [{ name := "alpine" }]
    tags := [("alpine", [{ tag := "latest", digest := c8Digest }])]
    manifests := [(c8Digest, { type := .oci, data := c8Data })]
    blobs := [] }

theorem c8_manifest_etag_witness :
    resolveReference c8Db "alpine" "latest" = some c8Digest ∧
    getManifest c8Db "alpine" "latest" (some ociManifestMT) none =
      .ok { status := 200, contentType := some ociManifestMT,
            dockerContentDigest := some c8Digest,
            etag := some (etagOf c8Data), body := some c8Data } :=
  ⟨by decide,
   (c8_manifest_etag c8Db "alpine" "latest" (some ociManifestMT) none c8Digest
      { type := .oci, data := c8Data } c8Data ociManifestMT
      (by decide) (by decide) (by decide) (by decide)).2.2.1
     (fun he => Option.noConfusion he)⟩

end Reg
